import Mathlib

/-!
Verification of the MagicBricks scraping engine
(`src/scrapers/magicbricks_scraper.py`) against its natural-language
specification.  The Python code is shallowly embedded: the retry loop of
`MagicBricksInfiniteScraper.fetch_page` becomes a recursive function over a
script of per-attempt results, the listing extractor and its per-target
dedup set become pure state-passing functions, the pagination and
detail-enrichment phases of `scrape_single_city_task` become recursions over
abstract fetch/parse collaborators, and the orchestrator
`scrape_infinite_parallel` becomes a map over targets with explicit
exception results.
-/

/-- Result of one attempt inside `fetch_page`'s retry loop: an HTTP
response with a status code and body text, a `requests` timeout, a
connection error, or any other exception raised by the attempt. -/
inductive AttemptResult where
  | http (status : Nat) (body : String)
  | timeout
  | connError
  | otherExc
deriving DecidableEq

/-- MAX_RETRIES constant of `fetch_page` (line 199 of the source). -/
def MAX_RETRIES : Nat := 4

/-- Observable result of a `fetch_page` call: the returned value
(`some body` when the function returns `response.text`, `none` when it
returns `None`), the number of session recreations performed (each being
`self.session = self._make_session()` followed by a forced re-warm-up,
lines 242-244), and the number of attempts actually issued. -/
structure FetchResult where
  body : Option String
  rotations : Nat
  attempts : Nat
deriving DecidableEq

/-- The retry loop of `fetch_page` (lines 212-268).  `script a` is the
result of attempt number `a` (1-based).  `rem` is the number of loop
iterations left, `attempt` the current attempt number, `rot` the number of
session recreations so far.  Branches follow the source exactly:
status 200 returns the body; status 403 with `attempt < MAX_RETRIES`
backs off, recreates the session only when `attempt >= 2`, and continues,
while at the last attempt it returns `None`; status 429 backs off and
continues; any other status returns `None`; timeouts and connection errors
sleep and continue; any other exception returns `None`; falling out of the
loop returns `None`. -/
def fetchLoop (script : Nat → AttemptResult) : Nat → Nat → Nat → FetchResult
  | 0, _, rot => ⟨none, rot, 0⟩
  | rem + 1, attempt, rot =>
    match script attempt with
    | .http status body =>
      if status = 200 then
        ⟨some body, rot, 1⟩
      else if status = 403 then
        if attempt < MAX_RETRIES then
          let rot' := if 2 ≤ attempt then rot + 1 else rot
          let r := fetchLoop script rem (attempt + 1) rot'
          ⟨r.body, r.rotations, r.attempts + 1⟩
        else ⟨none, rot, 1⟩
      else if status = 429 then
        let r := fetchLoop script rem (attempt + 1) rot
        ⟨r.body, r.rotations, r.attempts + 1⟩
      else ⟨none, rot, 1⟩
    | .timeout =>
      let r := fetchLoop script rem (attempt + 1) rot
      ⟨r.body, r.rotations, r.attempts + 1⟩
    | .connError =>
      let r := fetchLoop script rem (attempt + 1) rot
      ⟨r.body, r.rotations, r.attempts + 1⟩
    | .otherExc => ⟨none, rot, 1⟩

/-- `fetch_page`: runs the retry loop with `MAX_RETRIES` iterations,
starting at attempt 1 with no rotations performed. -/
def fetch_page (script : Nat → AttemptResult) : FetchResult :=
  fetchLoop script MAX_RETRIES 1 0

/-- Modelled from the spec: the spec's soft-block keyword list
(section 4.1); no such list exists in the source. -/
def SOFT_BLOCK_KEYWORDS : List String :=
  ["captcha", "verify you are human", "checking your browser"]

/-- Modelled from the spec: case-insensitive substring containment, the
containment notion of the spec's keyword rule (section 4.1); no body
inspection exists in the source. -/
def containsCI (body kw : String) : Bool :=
  decide (kw.data.map Char.toLower <:+: body.data.map Char.toLower)

/-- Attempt script for the spec's scenario
[TransientError, TransientError, Blocked, Success]. -/
def scenarioTTBS : Nat → AttemptResult := fun a =>
  if a = 1 then .timeout
  else if a = 2 then .connError
  else if a = 3 then .http 403 ""
  else .http 200 "listing"

theorem fetchLoop_attempts_le (script : Nat → AttemptResult) :
    ∀ rem attempt rot, (fetchLoop script rem attempt rot).attempts ≤ rem := by
  intro rem
  induction rem with
  | zero => intro attempt rot; simp [fetchLoop]
  | succ n ih =>
    intro attempt rot
    unfold fetchLoop
    cases script attempt with
    | http status body =>
      simp only
      split
      · simp
      · split
        · split
          · exact Nat.succ_le_succ (ih _ _)
          · simp
        · split
          · exact Nat.succ_le_succ (ih _ _)
          · simp
    | timeout => exact Nat.succ_le_succ (ih _ _)
    | connError => exact Nat.succ_le_succ (ih _ _)
    | otherExc => simp

theorem fetchLoop_no200_none (script : Nat → AttemptResult) :
    ∀ rem attempt rot, (∀ a b, script a ≠ .http 200 b) →
      (fetchLoop script rem attempt rot).body = none := by
  intro rem
  induction rem with
  | zero => intro attempt rot _; simp [fetchLoop]
  | succ n ih =>
    intro attempt rot h
    unfold fetchLoop
    cases hs : script attempt with
    | http status body =>
      simp only
      split
      · rename_i h200
        exact absurd (h200 ▸ hs) (h attempt body)
      · split
        · split
          · exact ih _ _ h
          · simp
        · split
          · exact ih _ _ h
          · simp
    | timeout => exact ih _ _ h
    | connError => exact ih _ _ h
    | otherExc => simp

/-- C1: the claim states that a status-200 listing response whose body is
shorter than MIN_LISTING_SIZE is classified SoftBlocked and never returned
as a successful result.  The source has no MIN_LISTING_SIZE and no size
check: at lines 229-232 a status-200 response is returned immediately.
Here a status-200 response with the empty body (length 0, below every
positive minimum size) is returned as a successful result on attempt 1. -/
theorem c1_counterexample :
    fetch_page (fun _ => .http 200 "") = ⟨some "", 0, 1⟩ ∧ "".length = 0 :=
  ⟨rfl, rfl⟩

/-- C1 amended: `fetch_page` performs no body-size check; whenever the
first attempt's response has status 200, the body is returned as the
successful result regardless of its length, after exactly one attempt. -/
theorem c1_amended (script : Nat → AttemptResult) (body : String)
    (h : script 1 = .http 200 body) :
    (fetch_page script).body = some body ∧ (fetch_page script).attempts = 1 := by
  simp [fetch_page, MAX_RETRIES, fetchLoop, h]

theorem c1_amended_witness :
    ((fun _ => AttemptResult.http 200 "x") 1 = AttemptResult.http 200 "x") ∧
    (fetch_page (fun _ => .http 200 "x")).body = some "x" :=
  ⟨rfl, (c1_amended (fun _ => .http 200 "x") "x" rfl).1⟩

/-- Body used for the C2 counterexample: it contains the soft-block
keyword "captcha" as a case-insensitive substring. -/
def c2Body : String := "Please verify the CAPTCHA to continue"

/-- C2: the claim states that a response whose body contains a soft-block
keyword (case-insensitive) is classified SoftBlocked and never returned as
a successful result.  The source never inspects the body: at lines 229-232
a status-200 response is returned immediately.  Here a status-200 response
whose body contains "captcha" case-insensitively is returned as a
successful result on attempt 1. -/
theorem c2_counterexample :
    containsCI c2Body "captcha" = true ∧ "captcha" ∈ SOFT_BLOCK_KEYWORDS ∧
    fetch_page (fun _ => .http 200 c2Body) = ⟨some c2Body, 0, 1⟩ := by
  refine ⟨by decide, by decide, rfl⟩

/-- C2 amended: `fetch_page` performs no body-content inspection; even
when the body of a status-200 first response contains a soft-block keyword
as a case-insensitive substring, the body is returned as the successful
result. -/
theorem c2_amended (script : Nat → AttemptResult) (body kw : String)
    (_hkw : kw ∈ SOFT_BLOCK_KEYWORDS) (_hc : containsCI body kw = true)
    (h : script 1 = .http 200 body) :
    (fetch_page script).body = some body := by
  simp [fetch_page, MAX_RETRIES, fetchLoop, h]

theorem c2_amended_witness :
    ("captcha" ∈ SOFT_BLOCK_KEYWORDS ∧ containsCI c2Body "captcha" = true ∧
      (fun _ => AttemptResult.http 200 c2Body) 1 = AttemptResult.http 200 c2Body) ∧
    (fetch_page (fun _ => .http 200 c2Body)).body = some c2Body :=
  ⟨⟨by decide, by decide, rfl⟩,
    c2_amended (fun _ => .http 200 c2Body) c2Body "captcha" (by decide) (by decide) rfl⟩

/-- Attempt script with a 403 on the first attempt and a 200 afterwards. -/
def c3Script : Nat → AttemptResult := fun a =>
  if a = 1 then .http 403 "" else .http 200 "ok"

/-- C3: the claim states that every Blocked (403) attempt is followed,
before the next attempt, by a rotation to a fresh session plus re-warm-up.
In the source (lines 237-244) the session is recreated only when
`attempt >= 2`: a 403 on attempt 1 backs off but reuses the same session.
Here attempt 1 is Blocked, attempt 2 succeeds, and the number of session
recreations performed is 0, not 1. -/
theorem c3_counterexample :
    fetch_page c3Script = ⟨some "ok", 0, 2⟩ := rfl

/-- C3 amended: on a Blocked (403) attempt with `attempt < MAX_RETRIES`
the engine backs off and continues, recreating the session (fresh cookies
plus re-warm-up) exactly when `2 ≤ attempt`; on a 403 at the last attempt
it gives up with a failure.  The scenario
[TransientError, TransientError, Blocked, Success] returns Success on
attempt 4 having performed exactly one session recreation, triggered by
the Blocked outcome at attempt 3. -/
theorem c3_amended (script : Nat → AttemptResult) (rem attempt rot : Nat)
    (b : String) (h : script attempt = .http 403 b) :
    (fetchLoop script (rem + 1) attempt rot =
      if attempt < MAX_RETRIES then
        let r := fetchLoop script rem (attempt + 1) (if 2 ≤ attempt then rot + 1 else rot)
        ⟨r.body, r.rotations, r.attempts + 1⟩
      else ⟨none, rot, 1⟩) ∧
    fetch_page scenarioTTBS = ⟨some "listing", 1, 4⟩ := by
  refine ⟨?_, rfl⟩
  simp [fetchLoop, h]

theorem c3_amended_witness :
    (c3Script 1 = AttemptResult.http 403 "") ∧
    (fetchLoop c3Script (3 + 1) 1 0 =
      if 1 < MAX_RETRIES then
        let r := fetchLoop c3Script 3 (1 + 1) (if 2 ≤ 1 then 0 + 1 else 0)
        ⟨r.body, r.rotations, r.attempts + 1⟩
      else ⟨none, 0, 1⟩) :=
  ⟨rfl, (c3_amended c3Script 3 1 0 "" rfl).1⟩

/-- C4: `fetch_page` issues at most MAX_RETRIES = 4 attempts, and when no
attempt produces a status-200 response it returns `None` (a non-success
result) rather than looping further. -/
theorem c4_retry_bound (script : Nat → AttemptResult) :
    (fetch_page script).attempts ≤ MAX_RETRIES ∧
    ((∀ a b, script a ≠ .http 200 b) → (fetch_page script).body = none) :=
  ⟨fetchLoop_attempts_le script MAX_RETRIES 1 0,
    fun h => fetchLoop_no200_none script MAX_RETRIES 1 0 h⟩

theorem c4_retry_bound_witness :
    (fetch_page (fun _ => .http 403 "")).attempts ≤ MAX_RETRIES ∧
    (fetch_page (fun _ => .http 403 "")).body = none :=
  ⟨(c4_retry_bound (fun _ => .http 403 "")).1,
    (c4_retry_bound (fun _ => .http 403 "")).2 (fun a b => by simp)⟩

/-- Site origin prepended to relative hrefs (line 292 of the source). -/
def BASE_SITE : String := "https://www.magicbricks.com"

/-- Python `str.strip()` over the characters of an href: whitespace is
dropped from both ends (line 285 of the source). -/
def stripChars (l : List Char) : List Char :=
  ((l.dropWhile Char.isWhitespace).reverse.dropWhile Char.isWhitespace).reverse

/-- URL normalization inside `extract_property_listings` (lines 285-292):
strip the raw href, skip it when empty, and prepend the site origin unless
it already starts with "http". -/
def normalizeUrl (raw : String) : Option String :=
  let url := String.mk (stripChars raw.data)
  if url = "" then none
  else if decide ("http".data <+: url.data) then some url
  else some (String.mk (BASE_SITE.data ++ url.data))

/-- Link loop of `extract_property_listings` (lines 283-340).  `raw` hrefs
are normalized; empty ones are skipped; a URL already in the per-target
`seen_urls` set is skipped; otherwise it is added to the set and one
record is appended.  The per-record fields built from the URL slug
(lines 301-339) are field-extraction heuristics the spec scopes out, so a
record is represented by its `url` key: the function returns the final
seen set and the urls of the appended records, in order. -/
def extractLoop : List String → List String → List String → List String × List String
  | [], seen, acc => (seen, acc)
  | raw :: rest, seen, acc =>
    match normalizeUrl raw with
    | none => extractLoop rest seen acc
    | some url =>
      if url ∈ seen then extractLoop rest seen acc
      else extractLoop rest (url :: seen) (acc ++ [url])

/-- `extract_property_listings`: the loop runs over `all_links[:100]`
(line 283), threading the scraper's `seen_urls` set. -/
def extract_property_listings (links : List String) (seen : List String) :
    List String × List String :=
  extractLoop (links.take 100) seen []

/-- Phase-1 accumulation across successive pages of one target
(lines 469-482): each page's links go through
`extract_property_listings` with the same scraper's `seen_urls` set, and
the produced records are concatenated (`city_properties.extend`). -/
def extractPages : List (List String) → List String → List String × List String
  | [], seen => (seen, [])
  | pg :: rest, seen =>
    let r := extract_property_listings pg seen
    let r2 := extractPages rest r.1
    (r2.1, r.2 ++ r2.2)

theorem extractLoop_acc (l : List String) : ∀ seen acc,
    (extractLoop l seen acc).1 = (extractLoop l seen []).1 ∧
    (extractLoop l seen acc).2 = acc ++ (extractLoop l seen []).2 := by
  induction l with
  | nil => intro seen acc; simp [extractLoop]
  | cons raw rest ih =>
    intro seen acc
    cases hn : normalizeUrl raw with
    | none => simp only [extractLoop, hn]; exact ih seen acc
    | some url =>
      simp only [extractLoop, hn]
      by_cases h : url ∈ seen
      · simp only [if_pos h]; exact ih seen acc
      · simp only [if_neg h, List.nil_append]
        refine ⟨?_, ?_⟩
        · rw [(ih (url :: seen) (acc ++ [url])).1, (ih (url :: seen) [url]).1]
        · rw [(ih (url :: seen) (acc ++ [url])).2, (ih (url :: seen) [url]).2]
          simp

theorem extractLoop_seen_subset (l : List String) : ∀ seen acc u,
    u ∈ seen → u ∈ (extractLoop l seen acc).1 := by
  induction l with
  | nil => intro seen acc u hu; simpa [extractLoop] using hu
  | cons raw rest ih =>
    intro seen acc u hu
    cases hn : normalizeUrl raw with
    | none => simp only [extractLoop, hn]; exact ih seen acc u hu
    | some url =>
      simp only [extractLoop, hn]
      by_cases h : url ∈ seen
      · simp only [if_pos h]; exact ih seen acc u hu
      · simp only [if_neg h, List.nil_append]
        exact ih (url :: seen) (acc ++ [url]) u (List.mem_cons_of_mem url hu)

theorem extractLoop_mem (l : List String) : ∀ seen u,
    u ∈ (extractLoop l seen []).1 ↔ u ∈ (extractLoop l seen []).2 ∨ u ∈ seen := by
  induction l with
  | nil => intro seen u; simp [extractLoop]
  | cons raw rest ih =>
    intro seen u
    cases hn : normalizeUrl raw with
    | none => simp only [extractLoop, hn]; exact ih seen u
    | some url =>
      simp only [extractLoop, hn]
      by_cases h : url ∈ seen
      · simp only [if_pos h]; exact ih seen u
      · simp only [if_neg h, List.nil_append]
        rw [(extractLoop_acc rest (url :: seen) [url]).1,
          (extractLoop_acc rest (url :: seen) [url]).2]
        rw [ih (url :: seen) u]
        simp only [List.mem_cons, List.mem_append, List.mem_singleton]
        tauto

theorem extractLoop_nodup (l : List String) : ∀ seen,
    (extractLoop l seen []).2.Nodup ∧ ∀ u ∈ (extractLoop l seen []).2, u ∉ seen := by
  induction l with
  | nil => intro seen; simp [extractLoop]
  | cons raw rest ih =>
    intro seen
    cases hn : normalizeUrl raw with
    | none => simp only [extractLoop, hn]; exact ih seen
    | some url =>
      simp only [extractLoop, hn]
      by_cases h : url ∈ seen
      · simp only [if_pos h]; exact ih seen
      · simp only [if_neg h, List.nil_append]
        rw [(extractLoop_acc rest (url :: seen) [url]).2]
        have hrec := ih (url :: seen)
        refine ⟨?_, ?_⟩
        · simp only [List.singleton_append, List.nodup_cons]
          refine ⟨fun hmem => ?_, hrec.1⟩
          exact hrec.2 url hmem (List.mem_cons_self url seen)
        · intro u hu
          rcases List.mem_append.mp hu with hu1 | hu2
          · rw [List.mem_singleton] at hu1
            exact hu1 ▸ h
          · exact fun hs => hrec.2 u hu2 (List.mem_cons_of_mem url hs)

theorem extractLoop_complete (l : List String) : ∀ seen u raw,
    raw ∈ l → normalizeUrl raw = some u → u ∈ (extractLoop l seen []).1 := by
  induction l with
  | nil => intro seen u raw hmem; exact absurd hmem (List.not_mem_nil raw)
  | cons raw' rest ih =>
    intro seen u raw hmem hnorm
    rcases List.mem_cons.mp hmem with heq | htail
    · subst heq
      simp only [extractLoop, hnorm]
      by_cases h : u ∈ seen
      · simp only [if_pos h]; exact extractLoop_seen_subset rest seen [] u h
      · simp only [if_neg h, List.nil_append]
        exact extractLoop_seen_subset rest (u :: seen) [u] u (List.mem_cons_self u seen)
    · cases hn : normalizeUrl raw' with
      | none => simp only [extractLoop, hn]; exact ih seen u raw htail hnorm
      | some url =>
        simp only [extractLoop, hn]
        by_cases h : url ∈ seen
        · simp only [if_pos h]; exact ih seen u raw htail hnorm
        · simp only [if_neg h, List.nil_append]
          rw [(extractLoop_acc rest (url :: seen) [url]).1]
          exact ih (url :: seen) u raw htail hnorm

theorem extractLoop_length (l : List String) : ∀ seen acc,
    (extractLoop l seen acc).2.length ≤ acc.length + l.length := by
  induction l with
  | nil => intro seen acc; simp [extractLoop]
  | cons raw rest ih =>
    intro seen acc
    cases hn : normalizeUrl raw with
    | none =>
      simp only [extractLoop, hn, List.length_cons]
      exact le_trans (ih seen acc) (by omega)
    | some url =>
      simp only [extractLoop, hn]
      by_cases h : url ∈ seen
      · simp only [if_pos h, List.length_cons]
        exact le_trans (ih seen acc) (by omega)
      · simp only [if_neg h, List.length_cons]
        refine le_trans (ih (url :: seen) (acc ++ [url])) ?_
        simp only [List.length_append, List.length_singleton]
        omega

theorem extractPages_seen_subset (pages : List (List String)) : ∀ seen u,
    u ∈ seen → u ∈ (extractPages pages seen).1 := by
  induction pages with
  | nil => intro seen u hu; simpa [extractPages] using hu
  | cons pg rest ih =>
    intro seen u hu
    simp only [extractPages, extract_property_listings]
    exact ih _ u (extractLoop_seen_subset (pg.take 100) seen [] u hu)

theorem extractPages_mem (pages : List (List String)) : ∀ seen u,
    u ∈ (extractPages pages seen).1 ↔ u ∈ (extractPages pages seen).2 ∨ u ∈ seen := by
  induction pages with
  | nil => intro seen u; simp [extractPages]
  | cons pg rest ih =>
    intro seen u
    simp only [extractPages, extract_property_listings, List.mem_append]
    rw [ih, extractLoop_mem]
    tauto

theorem extractPages_nodup (pages : List (List String)) : ∀ seen,
    (extractPages pages seen).2.Nodup ∧ ∀ u ∈ (extractPages pages seen).2, u ∉ seen := by
  induction pages with
  | nil => intro seen; simp [extractPages]
  | cons pg rest ih =>
    intro seen
    simp only [extractPages, extract_property_listings]
    refine ⟨?_, ?_⟩
    · rw [List.nodup_append]
      refine ⟨(extractLoop_nodup _ seen).1, (ih _).1, ?_⟩
      intro u hu1 hu2
      have hseen : u ∈ (extractLoop (pg.take 100) seen []).1 :=
        (extractLoop_mem _ seen u).mpr (Or.inl hu1)
      exact (ih _).2 u hu2 hseen
    · intro u hu
      rcases List.mem_append.mp hu with h1 | h2
      · exact (extractLoop_nodup _ seen).2 u h1
      · intro hs
        exact (ih _).2 u h2 (extractLoop_seen_subset _ seen [] u hs)

theorem extractPages_complete (pages : List (List String)) : ∀ seen u pg raw,
    pg ∈ pages → raw ∈ pg.take 100 → normalizeUrl raw = some u →
    u ∈ (extractPages pages seen).1 := by
  induction pages with
  | nil => intro seen u pg raw hpg _ _; exact absurd hpg (List.not_mem_nil pg)
  | cons pg' rest ih =>
    intro seen u pg raw hpg hraw hnorm
    rcases List.mem_cons.mp hpg with heq | htail
    · subst heq
      simp only [extractPages, extract_property_listings]
      exact extractPages_seen_subset rest _ u (extractLoop_complete _ seen u raw hraw hnorm)
    · simp only [extractPages, extract_property_listings]
      exact ih _ u pg raw htail hraw hnorm

/-- C9: within one target, presenting the same listing URL any number of
times across any pages yields exactly one record: starting from the empty
`seen_urls` set of a fresh scraper, a URL presented (within the per-page
first-100 window the loop iterates) on at least one page occurs exactly
once among the produced records; the seen set grows monotonically, and a
record's URL is inserted only if it was not already in the set. -/
theorem c9_dedup (pages : List (List String)) (u : String)
    (hu : ∃ pg ∈ pages, ∃ raw ∈ pg.take 100, normalizeUrl raw = some u) :
    (extractPages pages []).2.count u = 1 ∧
    (∀ seen : List String, ∀ v ∈ seen, v ∈ (extractPages pages seen).1) ∧
    (∀ seen : List String, ∀ v ∈ (extractPages pages seen).2, v ∉ seen) := by
  obtain ⟨pg, hpg, raw, hraw, hnorm⟩ := hu
  refine ⟨?_, fun seen v hv => extractPages_seen_subset pages seen v hv,
    fun seen v hv => (extractPages_nodup pages seen).2 v hv⟩
  have hfin : u ∈ (extractPages pages []).1 :=
    extractPages_complete pages [] u pg raw hpg hraw hnorm
  have hprod : u ∈ (extractPages pages []).2 := by
    rcases (extractPages_mem pages [] u).mp hfin with h | h
    · exact h
    · exact absurd h (List.not_mem_nil u)
  exact List.count_eq_one_of_mem (extractPages_nodup pages []).1 hprod

theorem c9_dedup_witness :
    (∃ pg ∈ ([["https://a"], ["https://a"]] : List (List String)),
      ∃ raw ∈ pg.take 100, normalizeUrl raw = some "https://a") ∧
    (extractPages [["https://a"], ["https://a"]] []).2.count "https://a" = 1 :=
  ⟨⟨["https://a"], by decide, "https://a", by decide, by decide⟩,
    (c9_dedup [["https://a"], ["https://a"]] "https://a"
      ⟨["https://a"], by decide, "https://a", by decide, by decide⟩).1⟩

/-- C10: the listing extractor iterates over `all_links[:100]` only, so
its result is unchanged by any links beyond the 100th and a single page
contributes at most 100 new records. -/
theorem c10_first100 (links : List String) (seen : List String) :
    extract_property_listings links seen = extract_property_listings (links.take 100) seen ∧
    (extract_property_listings links seen).2.length ≤ 100 := by
  constructor
  · simp [extract_property_listings, List.take_take]
  · have h := extractLoop_length (links.take 100) seen []
    simp only [List.length_nil, Nat.zero_add] at h
    refine le_trans h ?_
    rw [List.length_take]
    exact min_le_left _ _

/-- Stop condition of one target's listing-pagination loop
(lines 469-482): the fetch returned a falsy value (`if not html: break`,
lines 473-475), the page yielded no new records
(`if not properties: break`, lines 480-482), or the page range
`range(1, max_pages + 1)` was exhausted. -/
inductive StopReason where
  | fetchFailed
  | noNewRecords
  | maxPagesReached
deriving DecidableEq

/-- Result of the pagination phase of `scrape_single_city_task`: the final
seen-url set, the accumulated record urls (`city_properties`), the pages
visited in order, and why the loop stopped. -/
structure Phase1Result where
  seen : List String
  records : List String
  visited : List Nat
  reason : StopReason
deriving DecidableEq

/-- Python falsiness of `html` at line 473: `None` and the empty string
both count as a failed fetch. -/
def htmlOk : Option String → Bool
  | none => false
  | some s => !(decide (s = ""))

/-- Consecutive naturals [s, s+1, ..., s+n-1]. -/
def natsFrom (s : Nat) : Nat → List Nat
  | 0 => []
  | n + 1 => s :: natsFrom (s + 1) n

/-- Pagination loop of `scrape_single_city_task` (lines 469-482).
`fetchPage p` is what `fetch_page` returns for page `p`; `pageLinks html`
is the list of property-links BeautifulSoup finds in `html` (the external
parsing collaborator, line 279); each successful page's links go through
`extract_property_listings` with the scraper's seen set, new records are
appended, and the loop breaks on a falsy fetch or an empty yield. -/
def phase1 (fetchPage : Nat → Option String) (pageLinks : String → List String) :
    Nat → Nat → List String → List String → Phase1Result
  | 0, _, seen, acc => ⟨seen, acc, [], .maxPagesReached⟩
  | rem + 1, page, seen, acc =>
    match fetchPage page with
    | none => ⟨seen, acc, [page], .fetchFailed⟩
    | some html =>
      if html = "" then ⟨seen, acc, [page], .fetchFailed⟩
      else
        let r := extract_property_listings (pageLinks html) seen
        let acc' := acc ++ r.2
        if r.2.isEmpty then ⟨r.1, acc', [page], .noNewRecords⟩
        else
          let p := phase1 fetchPage pageLinks rem (page + 1) r.1 acc'
          ⟨p.seen, p.records, page :: p.visited, p.reason⟩

/-- `paginate`: phase 1 of a fresh target worker, pages 1..maxPages with
an empty seen set and no accumulated records. -/
def paginate (fetchPage : Nat → Option String) (pageLinks : String → List String)
    (maxPages : Nat) : Phase1Result :=
  phase1 fetchPage pageLinks maxPages 1 [] []

theorem phase1_invariants (f : Nat → Option String) (g : String → List String) :
    ∀ rem page seen acc,
      (phase1 f g rem page seen acc).visited =
        natsFrom page (phase1 f g rem page seen acc).visited.length ∧
      (phase1 f g rem page seen acc).visited.length ≤ rem ∧
      ((phase1 f g rem page seen acc).visited.length < rem →
        (phase1 f g rem page seen acc).reason ≠ .maxPagesReached) ∧
      ((phase1 f g rem page seen acc).reason = .fetchFailed →
        1 ≤ (phase1 f g rem page seen acc).visited.length ∧
        htmlOk (f (page + ((phase1 f g rem page seen acc).visited.length - 1))) = false) := by
  intro rem
  induction rem with
  | zero =>
    intro page seen acc
    refine ⟨rfl, Nat.le_refl 0, fun h => absurd h (Nat.lt_irrefl 0), fun h => ?_⟩
    simp [phase1] at h
  | succ n ih =>
    intro page seen acc
    cases hf : f page with
    | none =>
      simp only [phase1, hf]
      refine ⟨rfl, by simp, fun _ => by simp, fun _ => ?_⟩
      simp [htmlOk, hf]
    | some html =>
      by_cases hempty : html = ""
      · simp only [phase1, hf, if_pos hempty]
        refine ⟨rfl, by simp, fun _ => by simp, fun _ => ?_⟩
        simp [htmlOk, hf, hempty]
      · by_cases hnew : (extract_property_listings (g html) seen).2.isEmpty
        · simp only [phase1, hf, if_neg hempty, if_pos hnew]
          refine ⟨rfl, by simp, fun _ => by simp, fun h => ?_⟩
          simp at h
        · simp only [phase1, hf, if_neg hempty, if_neg hnew]
          obtain ⟨ih1, ih2, ih3, ih4⟩ :=
            ih (page + 1) (extract_property_listings (g html) seen).1
              (acc ++ (extract_property_listings (g html) seen).2)
          refine ⟨?_, ?_, ?_, ?_⟩
          · simp only [List.length_cons, natsFrom]
            exact congrArg (page :: ·) ih1
          · simpa using Nat.succ_le_succ ih2
          · intro hlt
            simp only [List.length_cons] at hlt
            exact ih3 (Nat.lt_of_succ_lt_succ hlt)
          · intro hr
            obtain ⟨hge, hok⟩ := ih4 hr
            refine ⟨by simp, ?_⟩
            have heq : (page + 1) + ((phase1 f g n (page + 1)
                  (extract_property_listings (g html) seen).1
                  (acc ++ (extract_property_listings (g html) seen).2)).visited.length - 1) =
                page + (phase1 f g n (page + 1)
                  (extract_property_listings (g html) seen).1
                  (acc ++ (extract_property_listings (g html) seen).2)).visited.length := by
              omega
            rw [heq] at hok
            simpa using hok

/-- Fetch results for the spec's pagination scenario: both pages fetch
successfully. -/
def scenarioFetch : Nat → Option String := fun p =>
  if p = 1 then some "page1" else some "page2"

/-- Parsed links for the spec's pagination scenario: page 1 yields 3
unique URLs and page 2 yields the same URLs again (0 new). -/
def scenarioLinks : String → List String := fun _ =>
  ["https://u1", "https://u2", "https://u3"]

/-- C7: pagination visits pages 1..maxPages strictly in order (the
visited pages form the initial segment [1, 2, ...] of length at most
maxPages) and stops early only when a page's fetch comes back falsy
(partial results kept) or when a page yields zero new records; in the
spec's scenario (maxPages = 2, page 1 yields 3 unique URLs, page 2 yields
0 new) pagination stops after page 2 with a final count of 3. -/
theorem c7_pagination (f : Nat → Option String) (g : String → List String)
    (maxPages : Nat) :
    ((paginate f g maxPages).visited =
        natsFrom 1 (paginate f g maxPages).visited.length ∧
      (paginate f g maxPages).visited.length ≤ maxPages ∧
      ((paginate f g maxPages).visited.length < maxPages →
        (paginate f g maxPages).reason = .fetchFailed ∨
        (paginate f g maxPages).reason = .noNewRecords) ∧
      ((paginate f g maxPages).reason = .fetchFailed →
        htmlOk (f (1 + ((paginate f g maxPages).visited.length - 1))) = false)) ∧
    ((paginate scenarioFetch scenarioLinks 2).records.length = 3 ∧
      (paginate scenarioFetch scenarioLinks 2).visited = [1, 2] ∧
      (paginate scenarioFetch scenarioLinks 2).reason = .noNewRecords) := by
  obtain ⟨h1, h2, h3, h4⟩ := phase1_invariants f g maxPages 1 [] []
  refine ⟨⟨h1, h2, fun hlt => ?_, fun hr => (h4 hr).2⟩, by decide, by decide, by decide⟩
  have hne := h3 hlt
  cases hcase : (paginate f g maxPages).reason with
  | fetchFailed => exact Or.inl rfl
  | noNewRecords => exact Or.inr rfl
  | maxPagesReached => exact absurd hcase hne

theorem c7_pagination_witness :
    ((paginate (fun _ => (none : Option String)) (fun _ => ([] : List String)) 5).reason =
        StopReason.fetchFailed ∨
      (paginate (fun _ => (none : Option String)) (fun _ => ([] : List String)) 5).reason =
        StopReason.noNewRecords) ∧
    htmlOk none = false :=
  ⟨(c7_pagination (fun _ => none) (fun _ => []) 5).1.2.2.1 (by decide),
    (c7_pagination (fun _ => none) (fun _ => []) 5).1.2.2.2 (by decide)⟩

/-- First-match lookup in a string-keyed field map, the lookup semantics
of a Python dict represented as an association list. -/
def dlookup (k : String) : List (String × String) → Option String
  | [] => none
  | p :: rest => if p.1 = k then some p.2 else dlookup k rest

/-- Python dict merge `{**prop, **detail}` (line 494 of the source):
the keys of `a` come first with `b`'s value overriding on collision,
followed by the keys only `b` has. -/
def pyMerge (a b : List (String × String)) : List (String × String) :=
  (a.map fun p => (p.1, (dlookup p.1 b).getD p.2)) ++
    b.filter fun p => (dlookup p.1 a).isNone

theorem dlookup_append (k : String) (a b : List (String × String)) :
    dlookup k (a ++ b) = (dlookup k a).or (dlookup k b) := by
  induction a with
  | nil => rfl
  | cons p rest ih =>
    simp only [List.cons_append, dlookup]
    by_cases h : p.1 = k
    · simp [h, Option.or]
    · simp [h, ih]

theorem dlookup_map_override (a b : List (String × String)) (k : String) :
    dlookup k (a.map fun p => (p.1, (dlookup p.1 b).getD p.2)) =
      (dlookup k a).map fun v => (dlookup k b).getD v := by
  induction a with
  | nil => rfl
  | cons p rest ih =>
    simp only [List.map_cons, dlookup]
    by_cases h : p.1 = k
    · subst h; simp
    · simp [h, ih]

theorem dlookup_filter_of_key_true (b : List (String × String)) (k : String)
    (p : String × String → Bool) (h : ∀ v, p (k, v) = true) :
    dlookup k (b.filter p) = dlookup k b := by
  induction b with
  | nil => rfl
  | cons q rest ih =>
    obtain ⟨k0, v0⟩ := q
    by_cases hq : k0 = k
    · subst hq
      simp [List.filter_cons, h v0, dlookup]
    · by_cases hp : p (k0, v0) = true
      · simp [List.filter_cons, hp, dlookup, hq, ih]
      · have hf : p (k0, v0) = false := by simpa using hp
        simp [List.filter_cons, hf, dlookup, hq, ih]

theorem pyMerge_lookup (a b : List (String × String)) (k : String) :
    dlookup k (pyMerge a b) = (dlookup k b).or (dlookup k a) := by
  unfold pyMerge
  rw [dlookup_append, dlookup_map_override]
  cases ha : dlookup k a with
  | some v => cases hb : dlookup k b <;> simp [Option.or]
  | none =>
    rw [dlookup_filter_of_key_true b k _ (fun v => by simp [ha])]
    cases hb : dlookup k b <;> simp [Option.or]

/-- Outcome of the detail step for one accumulated record inside the
enrichment loop (lines 489-500): the detail page was fetched and parsed
into a field map; `fetch_page` returned a falsy value; or an exception was
raised while processing. -/
inductive DetailOutcome where
  | fetched (detail : List (String × String))
  | fetchFailed
  | raised
deriving DecidableEq

/-- The record written for one input record (lines 491-500): the merged
dict `{**prop, **detail}` when the detail page came back, otherwise the
unmodified listing record (both the `else` branch at line 495-496 and the
`except` branch at lines 498-500 set `merged = prop`). -/
def detailMerge (prop : List (String × String)) : DetailOutcome → List (String × String)
  | .fetched detail => pyMerge prop detail
  | .fetchFailed => prop
  | .raised => prop

/-- Detail-enrichment phase (lines 488-505), `idx` enumerating records
from 1 as in `enumerate(city_properties, 1)`: for each input record
exactly one merged record is appended to the Sink
(`append_property_jsonl` at line 503 runs on every iteration). -/
def phase2 (oc : Nat → DetailOutcome) :
    Nat → List (List (String × String)) → List (List (String × String))
  | _, [] => []
  | idx, prop :: rest => detailMerge prop (oc idx) :: phase2 oc (idx + 1) rest

theorem phase2_length (oc : Nat → DetailOutcome) :
    ∀ props idx, (phase2 oc idx props).length = props.length := by
  intro props
  induction props with
  | nil => intro idx; rfl
  | cons prop rest ih => intro idx; simp [phase2, ih]

theorem phase2_getElem (oc : Nat → DetailOutcome) :
    ∀ (props : List (List (String × String))) idx i,
      (phase2 oc idx props)[i]? =
        (props[i]?).map fun prop => detailMerge prop (oc (idx + i)) := by
  intro props
  induction props with
  | nil => intro idx i; simp [phase2]
  | cons prop rest ih =>
    intro idx i
    cases i with
    | zero => simp [phase2]
    | succ j =>
      simp only [phase2, List.getElem?_cons_succ]
      have : idx + 1 + j = idx + (j + 1) := by omega
      rw [ih (idx + 1) j, this]

/-- C8: the enrichment phase writes exactly one record to the Sink per
accumulated listing record — output and input have the same length and the
i-th output corresponds to the i-th input: when the detail fetch
succeeded, it is the merged record in which detail-derived fields override
listing-derived fields on key collision; when the fetch failed or
processing raised, it is the unmodified listing record. -/
theorem c8_enrichment (oc : Nat → DetailOutcome)
    (props : List (List (String × String))) :
    (phase2 oc 1 props).length = props.length ∧
    (∀ i prop, props[i]? = some prop →
      (phase2 oc 1 props)[i]? = some (detailMerge prop (oc (1 + i))) ∧
      (oc (1 + i) = .fetchFailed ∨ oc (1 + i) = .raised →
        detailMerge prop (oc (1 + i)) = prop) ∧
      (∀ d, oc (1 + i) = .fetched d →
        ∀ k, dlookup k (detailMerge prop (oc (1 + i))) =
          (dlookup k d).or (dlookup k prop))) := by
  refine ⟨phase2_length oc props 1, fun i prop hp => ⟨?_, ?_, ?_⟩⟩
  · rw [phase2_getElem oc props 1 i, hp]
    rfl
  · rintro (h | h) <;> rw [h] <;> rfl
  · intro d hd k
    rw [hd]
    exact pyMerge_lookup prop d k

theorem c8_enrichment_witness :
    (([[("url", "u"), ("price_unit", "Lac")]] :
        List (List (String × String)))[0]? =
      some [("url", "u"), ("price_unit", "Lac")]) ∧
    (phase2 (fun _ => .fetched [("price_unit", "Cr")]) 1
        [[("url", "u"), ("price_unit", "Lac")]])[0]? =
      some (detailMerge [("url", "u"), ("price_unit", "Lac")]
        ((fun _ => DetailOutcome.fetched [("price_unit", "Cr")]) (1 + 0))) :=
  ⟨rfl,
    ((c8_enrichment (fun _ => .fetched [("price_unit", "Cr")])
      [[("url", "u"), ("price_unit", "Lac")]]).2 0
      [("url", "u"), ("price_unit", "Lac")] rfl).1⟩

/-- Per-target task `scrape_single_city_task` at the orchestration level
(lines 458-518): its whole body is wrapped in try/except, so the task
returns the worker's saved-properties count on success and the zero-count
entry for its city when the worker raises (lines 516-518).  `worker`
abstracts the task body (pagination plus enrichment), `Except` carrying a
raised exception's message. -/
def scrape_single_city_task (worker : String → Except String Nat)
    (city : String) : String × Nat :=
  match worker city with
  | .ok n => (city, n)
  | .error _ => (city, 0)

/-- Orchestrator `scrape_infinite_parallel` (lines 554-573): every city is
submitted to the pool, every future is consumed, and each result (or the
zero-count entry produced by the task-level except at lines 516-518 or the
orchestrator-level except at lines 571-573) is appended to the per-city
summary `city_results`. -/
def scrape_infinite_parallel (worker : String → Except String Nat)
    (cities : List String) : List (String × Nat) :=
  cities.map (scrape_single_city_task worker)

/-- C6: the run always terminates with a complete per-target summary —
one entry per submitted target, first components exactly the submitted
targets — and a worker that raises yields the zero-count entry for its
target while every other target still contributes its own entry; no
single target's failure aborts the run. -/
theorem c6_isolation (worker : String → Except String Nat)
    (cities : List String) :
    (scrape_infinite_parallel worker cities).map Prod.fst = cities ∧
    (scrape_infinite_parallel worker cities).length = cities.length ∧
    (∀ c ∈ cities, ∀ e, worker c = .error e →
      (c, 0) ∈ scrape_infinite_parallel worker cities) ∧
    (∀ c ∈ cities, ∀ n, worker c = .ok n →
      (c, n) ∈ scrape_infinite_parallel worker cities) := by
  refine ⟨?_, by simp [scrape_infinite_parallel], ?_, ?_⟩
  · unfold scrape_infinite_parallel
    rw [List.map_map]
    have h : ∀ c ∈ cities, (Prod.fst ∘ scrape_single_city_task worker) c = id c := by
      intro c _
      simp only [Function.comp_apply, scrape_single_city_task, id]
      cases worker c <;> rfl
    rw [List.map_congr_left h, List.map_id]
  · intro c hc e he
    have h : scrape_single_city_task worker c = (c, 0) := by
      simp [scrape_single_city_task, he]
    exact h ▸ List.mem_map_of_mem _ hc
  · intro c hc n hn
    have h : scrape_single_city_task worker c = (c, n) := by
      simp [scrape_single_city_task, hn]
    exact h ▸ List.mem_map_of_mem _ hc

/-- Worker for the C6 witness: target "A" raises, target "B" saves 5. -/
def c6Worker : String → Except String Nat := fun c =>
  if c = "A" then .error "boom" else .ok 5

theorem c6_isolation_witness :
    ("A" ∈ ["A", "B"] ∧ c6Worker "A" = .error "boom") ∧
    ("A", 0) ∈ scrape_infinite_parallel c6Worker ["A", "B"] :=
  ⟨⟨by decide, rfl⟩,
    (c6_isolation c6Worker ["A", "B"]).2.2.1 "A" (by decide) "boom" rfl⟩

/-- List of cities defined on the scraper class (lines 118-129). -/
def CITIES : List String :=
  ["Delhi-NCR", "Bangalore", "Mumbai", "Hyderabad", "Pune",
   "Chennai", "Kolkata", "Ahmedabad", "Jaipur", "Indore"]

/-- Scraper instance as constructed by
`MagicBricksInfiniteScraper.__init__` (lines 136-144): each construction
allocates a fresh `threading.Lock` (`self.file_lock = Lock()`, line 142);
`lockId` is the identity of that lock object and `city` the target the
instance serves. -/
structure ScraperInstance where
  lockId : Nat
  city : String
deriving DecidableEq

/-- Worker startup of `scrape_single_city_task` (line 463): each worker
constructs its own `MagicBricksInfiniteScraper`, so each construction
draws the next fresh lock identity; `allocScrapers fresh cities` is the
list of instances held by the workers of `cities`, allocation counter
starting at `fresh`. -/
def allocScrapers : Nat → List String → List ScraperInstance
  | _, [] => []
  | fresh, c :: rest => ⟨fresh, c⟩ :: allocScrapers (fresh + 1) rest

theorem natsFrom_mem : ∀ n s u, u ∈ natsFrom s n ↔ s ≤ u ∧ u < s + n := by
  intro n
  induction n with
  | zero => intro s u; simp [natsFrom]
  | succ m ih =>
    intro s u
    simp only [natsFrom, List.mem_cons, ih (s + 1)]
    omega

theorem natsFrom_nodup : ∀ n s, (natsFrom s n).Nodup := by
  intro n
  induction n with
  | zero => intro s; simp [natsFrom]
  | succ m ih =>
    intro s
    simp only [natsFrom, List.nodup_cons]
    refine ⟨fun h => ?_, ih (s + 1)⟩
    rw [natsFrom_mem] at h
    omega

theorem allocScrapers_lockIds (cities : List String) : ∀ fresh,
    (allocScrapers fresh cities).map ScraperInstance.lockId =
      natsFrom fresh cities.length := by
  induction cities with
  | nil => intro fresh; rfl
  | cons c rest ih => intro fresh; simp [allocScrapers, natsFrom, ih]

/-- C5: the claim states that all workers' Sink appends pass through one
shared mutual-exclusion mechanism.  In the code each worker constructs its
own scraper (line 463) and the lock taken by `append_property_jsonl` /
`append_property_csv` is that instance's own `self.file_lock` allocated in
`__init__` (line 142), so the workers' lock identities are pairwise
distinct fresh allocations — no single shared lock serializes the appends
of different workers; concretely, the workers of the first two cities hold
locks 0 and 1. -/
theorem c5_per_worker_locks (cities : List String) (fresh : Nat) :
    (allocScrapers fresh cities).map ScraperInstance.lockId =
      natsFrom fresh cities.length ∧
    ((allocScrapers fresh cities).map ScraperInstance.lockId).Nodup ∧
    (allocScrapers 0 (CITIES.take 2)).map ScraperInstance.lockId = [0, 1] := by
  refine ⟨allocScrapers_lockIds cities fresh, ?_, by decide⟩
  rw [allocScrapers_lockIds cities fresh]
  exact natsFrom_nodup cities.length fresh
